import Mathlib

/-!
Shallow embedding of luigi's `target.py`: the `Target` / `FileSystem`
contracts, `FileSystemTarget` delegation, and the `TargetFactory`
machinery (factory stack searched top-down plus target observers).

Python class-level mutable state (`TargetFactory._impl_stack`,
`TargetFactory._target_observers`) is modelled by explicit state passing
over `TFState`; methods that raise return `Except String`.
-/

namespace LuigiTarget

/-- A construction request handed to `make_target`: the requested target
class together with its positional and keyword arguments, coded opaquely
as naturals. -/
structure Request where
  target_class : Nat
  args : List Nat
deriving DecidableEq

/-- A target value. `Tgt.direct c a` is the result of direct construction
`target_class(*args, **kwargs)` for request class `c` with arguments `a`;
`Tgt.mock` covers any other target an alternative factory implementation
may produce. -/
inductive Tgt where
  | direct (target_class : Nat) (args : List Nat)
  | mock (id : Nat)
deriving DecidableEq

/-- `TargetFactoryInterface.make_target`: a factory is function-shaped,
returning `none` (`None` in the source) to decline a request. -/
def Factory : Type := Request → Option Tgt

/-- `DefaultTargetFactory.make_target`: always succeeds, returning the
direct construction `target_class(*args, **kwargs)`. -/
def DefaultTargetFactory : Factory :=
  fun req => some (Tgt.direct req.target_class req.args)

/-- The class-level state of `TargetFactory`: the factory stack
`_impl_stack` (bottom of the stack at index 0; `push` appends at the end,
so the top of the stack is the last element) and the observer list
`_target_observers` (observers coded by id, registration order). -/
structure TFState where
  _impl_stack : List Factory
  _target_observers : List Nat

/-- The state `TargetFactory` is initialized with:
`_impl_stack = [DefaultTargetFactory()]` and `_target_observers = []`. -/
def TargetFactory.initialState : TFState :=
  { _impl_stack := [DefaultTargetFactory], _target_observers := [] }

/-- `TargetFactory._observe`: notify every registered observer, in list
order, with the produced target. A notification is recorded as the pair
(observer, target). -/
def TargetFactory._observe (s : TFState) (t : Tgt) : List (Nat × Tgt) :=
  s._target_observers.map (fun o => (o, t))

/-- The loop of `TargetFactory.make_target`: walk the given factory list
front to back, invoking each factory until one returns a non-null target.
Returns the result together with the number of factories invoked, so the
extent of the walk is observable. -/
def walkStack : List Factory → Request → Option Tgt × Nat
  | [], _ => (none, 0)
  | f :: rest, req =>
    match f req with
    | some t => (some t, 1)
    | none =>
      let p := walkStack rest req
      (p.1, p.2 + 1)

/-- `TargetFactory.make_target`: walk the factory stack from the most
recently pushed entry to the oldest (`reversed(cls._impl_stack)`); the
first non-null target is passed to `_observe` and returned. If every
factory declines, the Python method falls off the end and returns `None`,
with no notifications. The second component collects the notifications
issued during the call. -/
def TargetFactory.make_target (s : TFState) (req : Request) :
    Option Tgt × List (Nat × Tgt) :=
  match walkStack s._impl_stack.reverse req with
  | (some t, _) => (some t, TargetFactory._observe s t)
  | (none, _) => (none, [])

/-- `TargetFactory.push`: `cls._impl_stack.append(target_factory)`. -/
def TargetFactory.push (s : TFState) (target_factory : Factory) : TFState :=
  { s with _impl_stack := s._impl_stack ++ [target_factory] }

/-- The message of the `AssertionError` raised by `TargetFactory.pop`
(the source concatenates the two string literals without a space). -/
def popMsg : String :=
  "Unable to pop from factory stack as it wouldleave the stack empty"

/-- `TargetFactory.pop`: raises `AssertionError` when the stack holds
fewer than two entries, otherwise removes the last (top) entry. -/
def TargetFactory.pop (s : TFState) : Except String TFState :=
  if s._impl_stack.length < 2 then .error popMsg
  else .ok { s with _impl_stack := s._impl_stack.dropLast }

/-- `TargetFactory.add_target_observer`:
`cls._target_observers.append(observer)`. -/
def TargetFactory.add_target_observer (s : TFState) (observer : Nat) : TFState :=
  { s with _target_observers := s._target_observers ++ [observer] }

/-- Python `list.remove(x)`: remove the first occurrence of `x`, raising
`ValueError` when `x` is not present. -/
def listRemove : List Nat → Nat → Except String (List Nat)
  | [], _ => .error "list.remove(x): x not in list"
  | a :: rest, x =>
    if a = x then .ok rest
    else
      match listRemove rest x with
      | .ok l => .ok (a :: l)
      | .error e => .error e

/-- `TargetFactory.remove_target_observer`:
`cls._target_observers.remove(observer)`. -/
def TargetFactory.remove_target_observer (s : TFState) (observer : Nat) :
    Except String TFState :=
  match listRemove s._target_observers observer with
  | .ok l => .ok { s with _target_observers := l }
  | .error e => .error e

/-- One stack operation on the factory stack. -/
inductive StackOp where
  | push (f : Factory)
  | pop

/-- Apply one stack operation to the `TargetFactory` state. -/
def applyOp (s : TFState) : StackOp → Except String TFState
  | .push f => .ok (TargetFactory.push s f)
  | .pop => TargetFactory.pop s

/-- Run a sequence of stack operations, stopping at the first error. -/
def runOps (s : TFState) : List StackOp → Except String TFState
  | [] => .ok s
  | op :: rest =>
    match applyOp s op with
    | .ok s2 => runOps s2 rest
    | .error e => .error e

/-- Number of pushes in a sequence of stack operations. -/
def countPushes : List StackOp → Nat
  | [] => 0
  | .push _ :: rest => countPushes rest + 1
  | .pop :: rest => countPushes rest

/-- Number of pops in a sequence of stack operations. -/
def countPops : List StackOp → Nat
  | [] => 0
  | .push _ :: rest => countPops rest
  | .pop :: rest => countPops rest + 1

/-- A sequence of stack operations starting from a stack of size `n`
never attempts to pop the last entry: every pop happens with at least two
entries present. -/
def validOps : Nat → List StackOp → Bool
  | _, [] => true
  | n, .push _ :: rest => validOps (n + 1) rest
  | n, .pop :: rest => decide (2 ≤ n) && validOps (n - 1) rest

/-- `FileSystemTarget`: owns a `path`; its filesystem is resolved through
the abstract accessor `fs` at each call. -/
structure FileSystemTarget where
  path : String
deriving DecidableEq

/-- `FileSystemTarget.exists`: `return self.fs.exists(self.path)`. The
backing filesystem's current existence predicate at call time is passed
as `fs_exists`. -/
def FileSystemTarget.fileExists (t : FileSystemTarget)
    (fs_exists : String → Bool) : Bool :=
  fs_exists t.path

/-- `FileSystemTarget.remove`: `self.fs.remove(self.path)`. The backing
filesystem's removal operation at call time is passed as `fs_remove`; its
effect on the backend (of arbitrary type `σ`) is returned. -/
def FileSystemTarget.doRemove {σ : Type} (t : FileSystemTarget)
    (fs_remove : String → σ) : σ :=
  fs_remove t.path

/-- A `FileSystem` backend: its concrete class name
(`self.__class__.__name__`) and its optional overrides of the base-class
`mkdir` / `isdir` methods (`none` when the backend does not override). -/
structure FileSystem where
  className : String
  mkdirImpl : Option (String → Except String Unit)
  isdirImpl : Option (String → Except String Bool)

/-- `FileSystem.mkdir`: dispatch to the backend's override when present;
the base-class method raises
`NotImplementedError("mkdir() not implemented on {0}".format(self.__class__.__name__))`. -/
def FileSystem.mkdir (fs : FileSystem) (path : String) : Except String Unit :=
  match fs.mkdirImpl with
  | some impl => impl path
  | none => .error ("mkdir() not implemented on " ++ fs.className)

/-- `FileSystem.isdir`: dispatch to the backend's override when present;
the base-class method raises
`NotImplementedError("isdir() not implemented on {0}".format(self.__class__.__name__))`. -/
def FileSystem.isdir (fs : FileSystem) (path : String) : Except String Bool :=
  match fs.isdirImpl with
  | some impl => impl path
  | none => .error ("isdir() not implemented on " ++ fs.className)

/-! Helper lemmas about the factory-stack walk. -/

/-- The result component of `make_target` is the result of the walk over
the reversed stack. -/
lemma make_target_fst (s : TFState) (req : Request) :
    (TargetFactory.make_target s req).1 = (walkStack s._impl_stack.reverse req).1 := by
  unfold TargetFactory.make_target
  rcases hw : walkStack s._impl_stack.reverse req with ⟨r, n⟩
  cases r <;> simp

/-- If every factory of a list declines, the walk yields nothing and
invokes every factory of the list. -/
lemma walkStack_all_none (l : List Factory) (req : Request)
    (h : ∀ f ∈ l, f req = none) : walkStack l req = (none, l.length) := by
  induction l with
  | nil => rfl
  | cons f rest ih =>
    have hf : f req = none := h f (List.mem_cons_self f rest)
    have hrest : ∀ g ∈ rest, g req = none := fun g hg => h g (List.mem_cons_of_mem f hg)
    simp [walkStack, hf, ih hrest]

/-- A walk that already produces a target on a first segment produces the
same target on the extended list. -/
lemma walkStack_append_some (l1 l2 : List Factory) (req : Request) (t : Tgt)
    (h : (walkStack l1 req).1 = some t) :
    (walkStack (l1 ++ l2) req).1 = some t := by
  induction l1 with
  | nil => simp [walkStack] at h
  | cons f rest ih =>
    cases hf : f req with
    | some t2 =>
      simp [walkStack, hf] at h ⊢
      exact h
    | none =>
      simp [walkStack, hf] at h ⊢
      exact ih h

/-- A walk that declines on a first segment continues into the rest. -/
lemma walkStack_append_none (l1 l2 : List Factory) (req : Request)
    (h : (walkStack l1 req).1 = none) :
    (walkStack (l1 ++ l2) req).1 = (walkStack l2 req).1 := by
  induction l1 with
  | nil => rfl
  | cons f rest ih =>
    cases hf : f req with
    | some t2 => simp [walkStack, hf] at h
    | none =>
      simp [walkStack, hf] at h ⊢
      exact ih h

/-- Anatomy of a successful walk: the invocation count `n` is positive and
at most the list length, every factory strictly before position `n - 1`
declined, and the factory at position `n - 1` produced the target. The
factories from position `n` on are never invoked. -/
lemma walkStack_spec (l : List Factory) (req : Request) (t : Tgt) (n : Nat)
    (h : walkStack l req = (some t, n)) :
    1 ≤ n ∧ n ≤ l.length ∧
    (∀ f ∈ l.take (n - 1), f req = none) ∧
    (∃ f rest, l.drop (n - 1) = f :: rest ∧ f req = some t) := by
  induction l generalizing n with
  | nil => simp [walkStack] at h
  | cons f rest ih =>
    cases hf : f req with
    | some t2 =>
      simp [walkStack, hf] at h
      obtain ⟨ht, hn⟩ := h
      subst ht
      refine ⟨by omega, by simp; omega, ?_, ?_⟩
      · intro g hg
        rw [hn.symm] at hg
        simp at hg
      · refine ⟨f, rest, ?_, hf⟩
        rw [hn.symm]
        simp
    | none =>
      simp [walkStack, hf] at h
      obtain ⟨h1, h2⟩ := h
      rcases hw : walkStack rest req with ⟨r, m⟩
      rw [hw] at h1 h2
      simp at h1 h2
      subst h1
      obtain ⟨hm1, hm2, htake, f2, rest2, hdrop, hf2⟩ := ih m hw
      have hn : n = m + 1 := by omega
      subst hn
      refine ⟨by omega, by simp; omega, ?_, ?_⟩
      · intro g hg
        have : m + 1 - 1 = (m - 1) + 1 := by omega
        rw [this] at hg
        simp [List.take_succ_cons] at hg
        rcases hg with hg | hg
        · rw [hg]; exact hf
        · exact htake g hg
      · have : m + 1 - 1 = (m - 1) + 1 := by omega
        rw [this]
        exact ⟨f2, rest2, by simpa using hdrop, hf2⟩

/-- A successful `make_target` call issues exactly the notifications
`_observe` produces: one per registered observer, in registration order,
each carrying the produced target. -/
lemma make_target_some_events (s : TFState) (req : Request) (t : Tgt)
    (evs : List (Nat × Tgt)) (h : TargetFactory.make_target s req = (some t, evs)) :
    evs = s._target_observers.map (fun o => (o, t)) := by
  unfold TargetFactory.make_target at h
  rcases hw : walkStack s._impl_stack.reverse req with ⟨r, n⟩
  rw [hw] at h
  cases r with
  | none => simp at h
  | some t2 =>
    simp [TargetFactory._observe] at h
    obtain ⟨ht, hevs⟩ := h
    subst ht
    exact hevs.symm

/-- Every notification issued by `make_target` goes to a currently
registered observer. -/
lemma make_target_events_mem (s : TFState) (req : Request) (p : Nat × Tgt)
    (hp : p ∈ (TargetFactory.make_target s req).2) : p.1 ∈ s._target_observers := by
  unfold TargetFactory.make_target at hp
  rcases hw : walkStack s._impl_stack.reverse req with ⟨r, n⟩
  rw [hw] at hp
  cases r with
  | none => simp at hp
  | some t2 =>
    simp [TargetFactory._observe] at hp
    obtain ⟨o, ho, hpo⟩ := hp
    subst hpo
    simpa using ho

/-- Claim C1: `TargetFactory.make_target` walks the factory stack from the
most recently pushed entry to the oldest — the walk list is
`reversed(_impl_stack)` — invoking `n` factories in total: every factory
before position `n - 1` of that walk declined with `none`, the factory at
position `n - 1` produced the returned target, and the factories below it
(positions `n` and beyond of the walk) are never invoked, the invocation
count being exactly `n`. -/
theorem make_target_top_down_first_match (s : TFState) (req : Request)
    (t : Tgt) (n : Nat)
    (h : walkStack s._impl_stack.reverse req = (some t, n)) :
    (TargetFactory.make_target s req).1 = some t ∧
    1 ≤ n ∧ n ≤ s._impl_stack.length ∧
    (∀ f ∈ s._impl_stack.reverse.take (n - 1), f req = none) ∧
    (∃ f rest, s._impl_stack.reverse.drop (n - 1) = f :: rest ∧ f req = some t) := by
  obtain ⟨h1, h2, h3, h4⟩ := walkStack_spec _ req t n h
  refine ⟨?_, h1, by simpa using h2, h3, h4⟩
  rw [make_target_fst, h]

/-- Witness for C1: a stack holding the default factory below a pushed
mock factory; the walk invokes only the pushed factory. -/
theorem make_target_top_down_first_match_witness :
    walkStack (TargetFactory.push TargetFactory.initialState
        (fun req => if req.target_class = 1 then some (Tgt.mock 7) else none))._impl_stack.reverse
        (Request.mk 1 []) = (some (Tgt.mock 7), 1) ∧
    ((TargetFactory.make_target (TargetFactory.push TargetFactory.initialState
        (fun req => if req.target_class = 1 then some (Tgt.mock 7) else none))
        (Request.mk 1 [])).1 = some (Tgt.mock 7) ∧
      1 ≤ 1 ∧ 1 ≤ (TargetFactory.push TargetFactory.initialState
        (fun req => if req.target_class = 1 then some (Tgt.mock 7) else none))._impl_stack.length ∧
      (∀ f ∈ (TargetFactory.push TargetFactory.initialState
        (fun req => if req.target_class = 1 then some (Tgt.mock 7) else none))._impl_stack.reverse.take 0,
        f (Request.mk 1 []) = none) ∧
      (∃ f rest, (TargetFactory.push TargetFactory.initialState
        (fun req => if req.target_class = 1 then some (Tgt.mock 7) else none))._impl_stack.reverse.drop 0 =
          f :: rest ∧ f (Request.mk 1 []) = some (Tgt.mock 7))) :=
  ⟨rfl, make_target_top_down_first_match _ _ _ 1 rfl⟩

/-- Claim C4: a `make_target` call that produces a target issues exactly
one notification per observer registered at that moment, in registration
order, each carrying the very target instance that is returned; the
notifications are computed from the constructed target and handed out
within the call, before the target reaches the caller. -/
theorem make_target_notifies_observers (s : TFState) (req : Request)
    (t : Tgt) (evs : List (Nat × Tgt))
    (h : TargetFactory.make_target s req = (some t, evs)) :
    evs = s._target_observers.map (fun o => (o, t)) :=
  make_target_some_events s req t evs h

/-- Witness for C4: two registered observers are both notified, in
registration order, with the produced target. -/
theorem make_target_notifies_observers_witness :
    TargetFactory.make_target
        { _impl_stack := [DefaultTargetFactory], _target_observers := [4, 9] }
        (Request.mk 2 [5]) = (some (Tgt.direct 2 [5]), [(4, Tgt.direct 2 [5]), (9, Tgt.direct 2 [5])]) ∧
    [(4, Tgt.direct 2 [5]), (9, Tgt.direct 2 [5])] =
      (({ _impl_stack := [DefaultTargetFactory], _target_observers := [4, 9] } : TFState))._target_observers.map
        (fun o => (o, Tgt.direct 2 [5])) :=
  ⟨rfl, make_target_notifies_observers _ (Request.mk 2 [5]) _ _ rfl⟩

/-- Claim C5: with `DefaultTargetFactory` at the bottom of the stack,
`make_target` always produces a target; and when every factory above the
bottom declines — so the producing factory is `DefaultTargetFactory` —
the returned target is exactly the direct construction
`target_class(*args, **kwargs)`. -/
theorem make_target_default_fallback (s : TFState) (req : Request)
    (rest : List Factory) (h : s._impl_stack = DefaultTargetFactory :: rest) :
    ((TargetFactory.make_target s req).1).isSome = true ∧
    ((∀ f ∈ rest, f req = none) →
      (TargetFactory.make_target s req).1 = some (Tgt.direct req.target_class req.args)) := by
  have hrev : s._impl_stack.reverse = rest.reverse ++ [DefaultTargetFactory] := by
    rw [h]; simp
  constructor
  · rw [make_target_fst, hrev]
    cases hr : (walkStack rest.reverse req).1 with
    | some t2 =>
      rw [walkStack_append_some _ _ _ _ hr]
      rfl
    | none =>
      rw [walkStack_append_none _ _ _ hr]
      rfl
  · intro hall
    have hnone : ∀ f ∈ rest.reverse, f req = none := by
      intro f hf
      exact hall f (by simpa using hf)
    rw [make_target_fst, hrev,
      walkStack_append_none _ _ _ (by rw [walkStack_all_none _ _ hnone])]
    rfl

/-- Witness for C5: a pushed factory that declines class 0 falls through
to the default factory's direct construction. -/
theorem make_target_default_fallback_witness :
    (TargetFactory.push TargetFactory.initialState
        (fun req => if req.target_class = 1 then some (Tgt.mock 7) else none))._impl_stack =
      DefaultTargetFactory :: [fun req => if req.target_class = 1 then some (Tgt.mock 7) else none] ∧
    (∀ f ∈ [fun req => if req.target_class = 1 then some (Tgt.mock 7) else none],
      f (Request.mk 0 [8]) = none) ∧
    ((TargetFactory.make_target (TargetFactory.push TargetFactory.initialState
        (fun req => if req.target_class = 1 then some (Tgt.mock 7) else none))
        (Request.mk 0 [8])).1).isSome = true ∧
    (TargetFactory.make_target (TargetFactory.push TargetFactory.initialState
        (fun req => if req.target_class = 1 then some (Tgt.mock 7) else none))
        (Request.mk 0 [8])).1 = some (Tgt.direct 0 [8]) := by
  have hmem : ∀ f ∈ [fun req => if req.target_class = 1 then some (Tgt.mock 7) else none],
      f (Request.mk 0 [8]) = none := by
    intro f hf
    rw [List.mem_singleton] at hf
    rw [hf]
    rfl
  have h := make_target_default_fallback (TargetFactory.push TargetFactory.initialState
      (fun req => if req.target_class = 1 then some (Tgt.mock 7) else none))
      (Request.mk 0 [8]) _ rfl
  exact ⟨rfl, hmem, h.1, h.2 hmem⟩

/-- Claim C6: when every factory in the stack declines the request, the
Python loop falls off the end: `make_target` returns `None` and issues no
notifications. -/
theorem make_target_exhausted_returns_none (s : TFState) (req : Request)
    (h : ∀ f ∈ s._impl_stack, f req = none) :
    TargetFactory.make_target s req = (none, []) := by
  have hrev : ∀ f ∈ s._impl_stack.reverse, f req = none := by
    intro f hf
    exact h f (by simpa using hf)
  unfold TargetFactory.make_target
  rw [walkStack_all_none _ _ hrev]

/-- Witness for C6: a stack holding only a factory that always declines
produces nothing and notifies nobody. -/
theorem make_target_exhausted_returns_none_witness :
    (∀ f ∈ ({ _impl_stack := [fun _ => none], _target_observers := [4] } : TFState)._impl_stack,
      f (Request.mk 0 []) = none) ∧
    TargetFactory.make_target
      { _impl_stack := [fun _ => none], _target_observers := [4] }
      (Request.mk 0 []) = (none, []) := by
  have hmem : ∀ f ∈ ({ _impl_stack := [fun _ => none], _target_observers := [4] } : TFState)._impl_stack,
      f (Request.mk 0 []) = none := by
    intro f hf
    rw [show ({ _impl_stack := [fun _ => none], _target_observers := [4] } : TFState)._impl_stack =
      [fun _ => none] from rfl, List.mem_singleton] at hf
    rw [hf]
  exact ⟨hmem, make_target_exhausted_returns_none _ _ hmem⟩

/-- Claim C3: `pop` on a single-entry stack raises the `AssertionError`
(no silent no-op, no new state — the stack is left as it was); on a stack
of two or more entries it removes exactly the top (last-pushed) entry and
keeps the rest unchanged. -/
theorem pop_single_fails_multi_removes_top (s : TFState) :
    (s._impl_stack.length = 1 → TargetFactory.pop s = .error popMsg) ∧
    (2 ≤ s._impl_stack.length →
      ∃ rest top, s._impl_stack = rest ++ [top] ∧
        TargetFactory.pop s = .ok { s with _impl_stack := rest } ∧
        rest.length + 1 = s._impl_stack.length) := by
  constructor
  · intro h1
    unfold TargetFactory.pop
    rw [if_pos (by omega)]
  · intro h2
    have hne : s._impl_stack ≠ [] := by
      intro h
      rw [h] at h2
      simp at h2
    refine ⟨s._impl_stack.dropLast, s._impl_stack.getLast hne, ?_, ?_, ?_⟩
    · exact (List.dropLast_append_getLast hne).symm
    · unfold TargetFactory.pop
      rw [if_neg (by omega)]
    · rw [List.length_dropLast]
      omega

/-- Witness for C3: popping the initial single-entry stack fails; popping
a two-entry stack removes the pushed top. -/
theorem pop_single_fails_multi_removes_top_witness :
    TargetFactory.pop TargetFactory.initialState = .error popMsg ∧
    (∃ rest top,
      (TargetFactory.push TargetFactory.initialState (fun _ => none))._impl_stack =
        rest ++ [top] ∧
      TargetFactory.pop (TargetFactory.push TargetFactory.initialState (fun _ => none)) =
        .ok { TargetFactory.push TargetFactory.initialState (fun _ => none) with
          _impl_stack := rest } ∧
      rest.length + 1 =
        (TargetFactory.push TargetFactory.initialState (fun _ => none))._impl_stack.length) :=
  ⟨(pop_single_fails_multi_removes_top TargetFactory.initialState).1 rfl,
    (pop_single_fails_multi_removes_top
      (TargetFactory.push TargetFactory.initialState (fun _ => none))).2 (by decide)⟩

/-! Helper lemmas for sequences of stack operations. -/

/-- Appending at the end does not change the head of a non-empty list. -/
lemma head?_append_singleton {α : Type} (l : List α) (a : α) (h : l ≠ []) :
    (l ++ [a]).head? = l.head? := by
  cases l with
  | nil => exact absurd rfl h
  | cons b rest => rfl

/-- Dropping the last entry of a list with at least two entries does not
change its head. -/
lemma head?_dropLast {α : Type} (l : List α) (h : 2 ≤ l.length) :
    l.dropLast.head? = l.head? := by
  match l with
  | [] => simp at h
  | [a] => simp at h
  | a :: b :: rest => rfl

/-- Validity of an operation sequence is inherited by its prefixes. -/
lemma validOps_append_left (p q : List StackOp) : ∀ n,
    validOps n (p ++ q) = true → validOps n p = true := by
  induction p with
  | nil =>
    intro n _
    rfl
  | cons op rest ih =>
    intro n h
    cases op with
    | push f =>
      exact ih (n + 1) h
    | pop =>
      rw [List.cons_append] at h
      unfold validOps at h ⊢
      rw [Bool.and_eq_true] at h ⊢
      exact ⟨h.1, ih (n - 1) h.2⟩

/-- Running a sequence that never attempts to pop the last entry succeeds,
the final size balances pushes against pops, the stack stays non-empty,
and the bottom entry is untouched. -/
lemma runOps_ok (ops : List StackOp) : ∀ s : TFState,
    validOps s._impl_stack.length ops = true →
    1 ≤ s._impl_stack.length →
    ∃ s2, runOps s ops = .ok s2 ∧
      s2._impl_stack.length + countPops ops = s._impl_stack.length + countPushes ops ∧
      1 ≤ s2._impl_stack.length ∧
      s2._impl_stack.head? = s._impl_stack.head? := by
  induction ops with
  | nil =>
    intro s _ hne
    exact ⟨s, rfl, by simp [countPops, countPushes], hne, rfl⟩
  | cons op rest ih =>
    intro s hv hne
    cases op with
    | push f =>
      have hv2 : validOps (TargetFactory.push s f)._impl_stack.length rest = true := by
        have : (TargetFactory.push s f)._impl_stack.length = s._impl_stack.length + 1 := by
          simp [TargetFactory.push]
        rw [this]
        exact hv
      obtain ⟨s2, hrun, hlen, hne2, hhead⟩ := ih (TargetFactory.push s f) hv2 (by
        simp [TargetFactory.push])
      refine ⟨s2, ?_, ?_, hne2, ?_⟩
      · simpa [runOps, applyOp] using hrun
      · have : (TargetFactory.push s f)._impl_stack.length = s._impl_stack.length + 1 := by
          simp [TargetFactory.push]
        rw [this] at hlen
        simp [countPops, countPushes]
        omega
      · rw [hhead]
        exact head?_append_singleton _ _ (by
          intro hl
          rw [hl] at hne
          simp at hne)
    | pop =>
      unfold validOps at hv
      rw [Bool.and_eq_true, decide_eq_true_eq] at hv
      obtain ⟨h2, hv2⟩ := hv
      have hpop : TargetFactory.pop s =
          .ok { s with _impl_stack := s._impl_stack.dropLast } := by
        unfold TargetFactory.pop
        rw [if_neg (by omega)]
      have hlen2 : ({ s with _impl_stack := s._impl_stack.dropLast} : TFState)._impl_stack.length =
          s._impl_stack.length - 1 := by
        simp
      obtain ⟨s2, hrun, hlen, hne2, hhead⟩ :=
        ih { s with _impl_stack := s._impl_stack.dropLast } (by rw [hlen2]; exact hv2)
          (by rw [hlen2]; omega)
      refine ⟨s2, ?_, ?_, hne2, ?_⟩
      · simpa [runOps, applyOp, hpop] using hrun
      · rw [hlen2] at hlen
        simp [countPops, countPushes]
        omega
      · rw [hhead]
        exact head?_dropLast _ h2

/-- Counterexample to C2 as stated: the empty sequence attempts no pop,
yet the resulting stack size is 1 (the initial `DefaultTargetFactory`
entry), not 0 = pushes minus pops. -/
theorem stack_net_size_counterexample :
    validOps TargetFactory.initialState._impl_stack.length ([] : List StackOp) = true ∧
    runOps TargetFactory.initialState [] = .ok TargetFactory.initialState ∧
    TargetFactory.initialState._impl_stack.length = 1 ∧
    countPushes ([] : List StackOp) = 0 ∧
    countPops ([] : List StackOp) = 0 ∧
    TargetFactory.initialState._impl_stack.length ≠
      countPushes ([] : List StackOp) - countPops ([] : List StackOp) :=
  ⟨rfl, rfl, rfl, rfl, rfl, by decide⟩

/-- Claim C2 (amended): for every sequence of pushes and pops from the
initial state that never attempts to pop the last entry, every prefix runs
without error to a non-empty stack whose bottom entry (position 0) is
still the `DefaultTargetFactory` placed there at initialization, and the
final stack size equals one (the initial entry) plus pushes minus pops. -/
theorem stack_push_pop_invariant (ops : List StackOp)
    (hv : validOps TargetFactory.initialState._impl_stack.length ops = true) :
    (∀ p q, ops = p ++ q →
      ∃ sp, runOps TargetFactory.initialState p = .ok sp ∧
        1 ≤ sp._impl_stack.length ∧
        sp._impl_stack.head? = some DefaultTargetFactory) ∧
    (∃ s2, runOps TargetFactory.initialState ops = .ok s2 ∧
      s2._impl_stack.length = 1 + countPushes ops - countPops ops ∧
      s2._impl_stack.length + countPops ops = 1 + countPushes ops) := by
  constructor
  · intro p q hpq
    have hvp : validOps TargetFactory.initialState._impl_stack.length p = true :=
      validOps_append_left p q _ (by rw [hpq] at hv; exact hv)
    obtain ⟨sp, hrun, hlen, hne, hhead⟩ := runOps_ok p TargetFactory.initialState hvp (by decide)
    exact ⟨sp, hrun, hne, by rw [hhead]; rfl⟩
  · obtain ⟨s2, hrun, hlen, hne, hhead⟩ := runOps_ok ops TargetFactory.initialState hv (by decide)
    have hinit : TargetFactory.initialState._impl_stack.length = 1 := rfl
    rw [hinit] at hlen
    exact ⟨s2, hrun, by omega, by omega⟩

/-- Witness for C2 (amended): one push followed by one pop is a valid
sequence; it runs back to a one-entry stack with the default factory at
the bottom throughout. -/
theorem stack_push_pop_invariant_witness :
    validOps TargetFactory.initialState._impl_stack.length
      [StackOp.push (fun _ => none), StackOp.pop] = true ∧
    ((∀ p q, [StackOp.push (fun _ => none), StackOp.pop] = p ++ q →
      ∃ sp, runOps TargetFactory.initialState p = .ok sp ∧
        1 ≤ sp._impl_stack.length ∧
        sp._impl_stack.head? = some DefaultTargetFactory) ∧
    (∃ s2, runOps TargetFactory.initialState
        [StackOp.push (fun _ => none), StackOp.pop] = .ok s2 ∧
      s2._impl_stack.length = 1 + countPushes [StackOp.push (fun _ => none), StackOp.pop] -
        countPops [StackOp.push (fun _ => none), StackOp.pop] ∧
      s2._impl_stack.length + countPops [StackOp.push (fun _ => none), StackOp.pop] =
        1 + countPushes [StackOp.push (fun _ => none), StackOp.pop])) :=
  ⟨rfl, stack_push_pop_invariant [StackOp.push (fun _ => none), StackOp.pop] rfl⟩

/-! Helper lemmas about `list.remove` and observer notifications. -/

/-- `list.remove` on an absent element raises `ValueError`. -/
lemma listRemove_not_mem (l : List Nat) (o : Nat) (h : o ∉ l) :
    listRemove l o = .error "list.remove(x): x not in list" := by
  induction l with
  | nil => rfl
  | cons a rest ih =>
    have ha : a ≠ o := by
      intro e
      exact h (by rw [e]; exact List.mem_cons_self o rest)
    have hrest : o ∉ rest := fun hr => h (List.mem_cons_of_mem a hr)
    simp [listRemove, ha, ih hrest]

/-- A successful `list.remove` removes exactly one occurrence. -/
lemma listRemove_count (l : List Nat) (o : Nat) : ∀ l2,
    listRemove l o = .ok l2 → l2.count o + 1 = l.count o := by
  induction l with
  | nil =>
    intro l2 h
    simp [listRemove] at h
  | cons a rest ih =>
    intro l2 h
    by_cases ha : a = o
    · rw [listRemove, if_pos ha] at h
      simp at h
      subst h
      subst ha
      simp [List.count_cons]
    · rw [listRemove, if_neg ha] at h
      cases hrec : listRemove rest o with
      | error e => rw [hrec] at h; simp at h
      | ok l3 =>
        rw [hrec] at h
        simp at h
        subst h
        have := ih l3 hrec
        simp [List.count_cons, ha]
        simp [List.count_cons, Ne.symm ha] at this ⊢
        omega

/-- `list.remove` removes the first occurrence: with no occurrence before
the removed one, the element splits off cleanly. -/
lemma listRemove_append_first (l : List Nat) (o : Nat) (tail : List Nat)
    (h : o ∉ l) : listRemove (l ++ o :: tail) o = .ok (l ++ tail) := by
  induction l with
  | nil => simp [listRemove]
  | cons a rest ih =>
    have ha : a ≠ o := by
      intro e
      exact h (by rw [e]; exact List.mem_cons_self o rest)
    have hrest : o ∉ rest := fun hr => h (List.mem_cons_of_mem a hr)
    simp [listRemove, ha, ih hrest]

/-- Filtering notification pairs by observer id commutes with building
the pairs. -/
lemma filter_map_pair (l : List Nat) (t : Tgt) (o : Nat) :
    (l.map (fun x => (x, t))).filter (fun p => p.1 == o) =
      (l.filter (fun x => x == o)).map (fun x => (x, t)) := by
  induction l with
  | nil => rfl
  | cons a rest ih =>
    by_cases h : (a == o) = true
    · simp [List.filter_cons, h, ih]
    · simp [List.filter_cons, h, ih]

/-- Filtering by an absent id yields nothing. -/
lemma filter_not_mem (l : List Nat) (o : Nat) (h : o ∉ l) :
    l.filter (fun x => x == o) = [] := by
  rw [List.filter_eq_nil_iff]
  intro a ha
  simp only [beq_iff_eq]
  intro e
  subst e
  exact h ha

/-- The notifications of a call whose result component is a target. -/
lemma make_target_snd_of_some (s : TFState) (req : Request) (t : Tgt)
    (h : (TargetFactory.make_target s req).1 = some t) :
    (TargetFactory.make_target s req).2 =
      s._target_observers.map (fun o => (o, t)) := by
  rcases hmk : TargetFactory.make_target s req with ⟨r, evs⟩
  rw [hmk] at h
  simp at h
  subst h
  exact make_target_some_events s req t evs hmk

/-- The state on which observer 5 is registered twice. -/
def obsTwiceState : TFState :=
  { _impl_stack := [DefaultTargetFactory], _target_observers := [5, 5] }

/-- `obsTwiceState` after one removal of observer 5. -/
def obsOnceState : TFState :=
  { _impl_stack := [DefaultTargetFactory], _target_observers := [5] }

/-- Counterexample to C7 as stated: observer 5 is registered (twice);
removing it succeeds, yet a subsequent `make_target` call still notifies
it — a validly removed registered observer keeps receiving
notifications. -/
theorem remove_observer_still_notified_counterexample :
    (5 : Nat) ∈ obsTwiceState._target_observers ∧
    TargetFactory.remove_target_observer obsTwiceState 5 = .ok obsOnceState ∧
    (TargetFactory.make_target obsOnceState (Request.mk 0 [])).2 =
      [(5, Tgt.direct 0 [])] :=
  ⟨by decide, rfl, rfl⟩

/-- Claim C7 (amended): removing an observer that is not currently
registered raises `ValueError` (element-not-found semantics, not a silent
no-op); and after a valid removal of an observer registered exactly once,
that observer receives no further notifications from subsequent
`make_target` calls. -/
theorem remove_observer_error_and_silence (s : TFState) (o : Nat) :
    (o ∉ s._target_observers →
      TargetFactory.remove_target_observer s o = .error "list.remove(x): x not in list") ∧
    (∀ s2, s._target_observers.count o = 1 →
      TargetFactory.remove_target_observer s o = .ok s2 →
      ∀ req : Request, ∀ p ∈ (TargetFactory.make_target s2 req).2, p.1 ≠ o) := by
  constructor
  · intro h
    unfold TargetFactory.remove_target_observer
    rw [listRemove_not_mem _ _ h]
  · intro s2 hcount hrem req p hp
    unfold TargetFactory.remove_target_observer at hrem
    cases hrec : listRemove s._target_observers o with
    | error e => rw [hrec] at hrem; simp at hrem
    | ok l =>
      rw [hrec] at hrem
      simp at hrem
      have hc : l.count o + 1 = s._target_observers.count o := listRemove_count _ _ l hrec
      have hl : l.count o = 0 := by omega
      have hnot : o ∉ l := by
        rw [← List.count_eq_zero]
        exact hl
      have hmem := make_target_events_mem s2 req p hp
      rw [← hrem] at hmem
      simp at hmem
      intro e
      rw [e] at hmem
      exact hnot hmem

/-- Observer list used by the C7 witness. -/
def oneObsState : TFState :=
  { _impl_stack := [DefaultTargetFactory], _target_observers := [3] }

/-- `oneObsState` after observer 3 is removed. -/
def noObsState : TFState :=
  { _impl_stack := [DefaultTargetFactory], _target_observers := [] }

/-- Witness for C7 (amended): removing unregistered observer 9 fails;
after removing the once-registered observer 3, a `make_target` call sends
it nothing. -/
theorem remove_observer_error_and_silence_witness :
    TargetFactory.remove_target_observer oneObsState 9 =
      .error "list.remove(x): x not in list" ∧
    (∀ p ∈ (TargetFactory.make_target noObsState (Request.mk 0 [])).2, p.1 ≠ 3) :=
  ⟨(remove_observer_error_and_silence oneObsState 9).1 (by decide),
    fun p hp => (remove_observer_error_and_silence oneObsState 3).2 noObsState
      (by decide) rfl (Request.mk 0 []) p hp⟩

/-- Registering observer `o` twice in a row, as the source's
`add_target_observer` appends it. -/
def addTwice (s : TFState) (o : Nat) : TFState :=
  TargetFactory.add_target_observer (TargetFactory.add_target_observer s o) o

/-- Claim C10: after registering the same (previously unregistered)
observer twice, a produced target is notified to it twice — once per
registration, in registration order; one `remove_target_observer` call
then removes only the earliest of its registrations, leaving one, so the
observer is still notified exactly once per produced target. -/
theorem duplicate_observer_double_notification (s : TFState) (o : Nat)
    (req : Request) (t : Tgt) (ho : o ∉ s._target_observers)
    (h1 : (TargetFactory.make_target (addTwice s o) req).1 = some t) :
    ((TargetFactory.make_target (addTwice s o) req).2.filter (fun p => p.1 == o)) =
      [(o, t), (o, t)] ∧
    (∃ s2, TargetFactory.remove_target_observer (addTwice s o) o = .ok s2 ∧
      s2._target_observers = s._target_observers ++ [o] ∧
      (TargetFactory.make_target s2 req).1 = some t ∧
      ((TargetFactory.make_target s2 req).2.filter (fun p => p.1 == o)) = [(o, t)]) := by
  have hobs : (addTwice s o)._target_observers = s._target_observers ++ [o, o] := by
    simp [addTwice, TargetFactory.add_target_observer]
  constructor
  · rw [make_target_snd_of_some _ _ _ h1, filter_map_pair, hobs, List.filter_append,
      filter_not_mem _ _ ho]
    simp
  · have hrem : TargetFactory.remove_target_observer (addTwice s o) o =
        .ok { addTwice s o with _target_observers := s._target_observers ++ [o] } := by
      unfold TargetFactory.remove_target_observer
      rw [hobs, show s._target_observers ++ [o, o] = s._target_observers ++ o :: [o] from rfl,
        listRemove_append_first _ _ _ ho]
    refine ⟨_, hrem, rfl, ?_, ?_⟩
    · rw [make_target_fst] at h1 ⊢
      exact h1
    · have h2 : (TargetFactory.make_target
          { addTwice s o with _target_observers := s._target_observers ++ [o] } req).1 = some t := by
        rw [make_target_fst] at h1 ⊢
        exact h1
      rw [make_target_snd_of_some _ _ _ h2, filter_map_pair]
      show ((s._target_observers ++ [o]).filter (fun x => x == o)).map (fun x => (x, t)) = [(o, t)]
      rw [List.filter_append, filter_not_mem _ _ ho]
      simp

/-- Witness for C10: observer 4, registered twice on the initial state, is
notified twice; after one removal it is notified once. -/
theorem duplicate_observer_double_notification_witness :
    (4 : Nat) ∉ TargetFactory.initialState._target_observers ∧
    (TargetFactory.make_target (addTwice TargetFactory.initialState 4)
      (Request.mk 2 [3])).1 = some (Tgt.direct 2 [3]) ∧
    (((TargetFactory.make_target (addTwice TargetFactory.initialState 4)
        (Request.mk 2 [3])).2.filter (fun p => p.1 == 4)) =
      [(4, Tgt.direct 2 [3]), (4, Tgt.direct 2 [3])] ∧
    (∃ s2, TargetFactory.remove_target_observer (addTwice TargetFactory.initialState 4) 4 =
        .ok s2 ∧
      s2._target_observers = TargetFactory.initialState._target_observers ++ [4] ∧
      (TargetFactory.make_target s2 (Request.mk 2 [3])).1 = some (Tgt.direct 2 [3]) ∧
      ((TargetFactory.make_target s2 (Request.mk 2 [3])).2.filter (fun p => p.1 == 4)) =
        [(4, Tgt.direct 2 [3])])) :=
  ⟨by decide, rfl,
    duplicate_observer_double_notification TargetFactory.initialState 4
      (Request.mk 2 [3]) (Tgt.direct 2 [3]) (by decide) rfl⟩

/-- Claim C8: `FileSystemTarget.exists` and `FileSystemTarget.remove` are
pure delegations of the bound path to the backing filesystem as it is at
call time — no caching, no memoization, no added state — so two `exists`
calls seeing different backend states at the target's path return
different results. -/
theorem fs_target_pure_delegation (t : FileSystemTarget)
    (fs1 fs2 : String → Bool) {σ : Type} (rm : String → σ)
    (h : fs1 t.path ≠ fs2 t.path) :
    FileSystemTarget.fileExists t fs1 = fs1 t.path ∧
    FileSystemTarget.fileExists t fs2 = fs2 t.path ∧
    FileSystemTarget.doRemove t rm = rm t.path ∧
    FileSystemTarget.fileExists t fs1 ≠ FileSystemTarget.fileExists t fs2 :=
  ⟨rfl, rfl, rfl, h⟩

/-- Witness for C8: toggling the backend's reported existence of the
target's path between two calls changes the second call's result. -/
theorem fs_target_pure_delegation_witness :
    ((fun _ => true) : String → Bool) "/data/x" ≠
      ((fun _ => false) : String → Bool) "/data/x" ∧
    (FileSystemTarget.fileExists ⟨"/data/x"⟩ (fun _ => true) =
        ((fun _ => true) : String → Bool) "/data/x" ∧
      FileSystemTarget.fileExists ⟨"/data/x"⟩ (fun _ => false) =
        ((fun _ => false) : String → Bool) "/data/x" ∧
      FileSystemTarget.doRemove ⟨"/data/x"⟩ (fun p => [p]) =
        (fun p => [p]) "/data/x" ∧
      FileSystemTarget.fileExists ⟨"/data/x"⟩ (fun _ => true) ≠
        FileSystemTarget.fileExists ⟨"/data/x"⟩ (fun _ => false)) :=
  ⟨by decide, fs_target_pure_delegation ⟨"/data/x"⟩ (fun _ => true) (fun _ => false)
    (fun p => [p]) (by decide)⟩

/-- Claim C9: on a backend that does not override them, `mkdir` and
`isdir` always fail with the `NotImplementedError` whose message names
the operation and the backend's concrete class name; they never succeed
and never raise an unnamed generic error. -/
theorem fs_mkdir_isdir_unsupported (fs : FileSystem) (path : String)
    (hm : fs.mkdirImpl = none) (hi : fs.isdirImpl = none) :
    fs.mkdir path = .error ("mkdir() not implemented on " ++ fs.className) ∧
    fs.isdir path = .error ("isdir() not implemented on " ++ fs.className) ∧
    (∀ u, fs.mkdir path ≠ .ok u) ∧
    (∀ b, fs.isdir path ≠ .ok b) := by
  unfold FileSystem.mkdir FileSystem.isdir
  rw [hm, hi]
  refine ⟨rfl, rfl, ?_, ?_⟩ <;> intro x hx <;> simp at hx

/-- Witness for C9: a backend named `MockFileSystem` with no overrides
fails both operations with messages naming it. -/
theorem fs_mkdir_isdir_unsupported_witness :
    FileSystem.mkdir ⟨"MockFileSystem", none, none⟩ "/a" =
      .error ("mkdir() not implemented on " ++ "MockFileSystem") ∧
    FileSystem.isdir ⟨"MockFileSystem", none, none⟩ "/a" =
      .error ("isdir() not implemented on " ++ "MockFileSystem") ∧
    (∀ u, FileSystem.mkdir ⟨"MockFileSystem", none, none⟩ "/a" ≠ .ok u) ∧
    (∀ b, FileSystem.isdir ⟨"MockFileSystem", none, none⟩ "/a" ≠ .ok b) :=
  fs_mkdir_isdir_unsupported ⟨"MockFileSystem", none, none⟩ "/a" rfl rfl

end LuigiTarget
